import Mathlib

/-!
Verification development for the OIL-Logistics ledger core.

The repository is a Streamlit application with four pages sharing a
CSV-backed state: a purchases table, a sales table and an inventory table
keyed by (OilType, InventoryType).  This file embeds the ledger and pricing
logic of those pages as pure Lean functions:

* `calculate_sale_price` mirrors the function of the same name in `app.py`;
  `calculate_sale_price_sales` mirrors the copy in the Sales Management page
  (which guards only on quantity, not distance).
* Python's `round` (banker's rounding) is modelled by `pyRound`, Python's
  `int` truncation by `pyInt`.  Quantities and prices, stored as Python
  floats, are modelled as exact rationals.
* The mutable tables are modelled by `State`; each form-submit or
  status-edit event of the app is one constructor of `Op`, and `step`
  reproduces the event handler's reads, guards and writes, including the
  first-matching-row semantics of the pandas index lookups.
-/

namespace OilLogistics

/-- The four commodity grades offered by every selectbox in the app. -/
inductive Oil : Type
  | crudeDegummed
  | palm
  | palmDegummed
  | crudeSunflower
deriving DecidableEq, Repr

/-- The CSV key string of each grade, as in `OIL_DENSITIES`. -/
def oilName : Oil → String
  | .crudeDegummed => "Crude Degummed Oil"
  | .palm => "Palm Oil"
  | .palmDegummed => "Palm Degummed"
  | .crudeSunflower => "Crude Sunflower Oil"

/-- Densities (kg/Litre) from the `OIL_DENSITIES` dictionary. -/
def OIL_DENSITIES : Oil → ℚ
  | .crudeDegummed => 92/100
  | .palm => 915/1000
  | .palmDegummed => 918/1000
  | .crudeSunflower => 922/1000

def TRANSPORT_COST_PER_KM : ℚ := 12

def IGST_RATE : ℚ := 5/100

/-- Function `get_simulated_oil_prices`, with the day-of-year counter made an explicit
argument: returns the current prices and the previous-day prices. -/
def get_simulated_oil_prices (day : ℕ) : (Oil → ℚ) × (Oil → ℚ) :=
  let base_price : ℚ := 80000 + day * 15
  let prices : Oil → ℚ := fun o =>
    match o with
    | .crudeDegummed => base_price
    | .palm => base_price - 5000
    | .palmDegummed => base_price - 4500
    | .crudeSunflower => base_price + 3000
  (prices, fun o => prices o * (99/100))

/-- Python's `round(x)`: round to the nearest integer, ties to even. -/
def pyRound (x : ℚ) : ℤ :=
  if x - Int.floor x < 1/2 then Int.floor x
  else if 1/2 < x - Int.floor x then Int.floor x + 1
  else if Int.floor x % 2 = 0 then Int.floor x else Int.floor x + 1

/-- Python's `round(x, 2)`: round to two decimal places, ties to even. -/
def pyRound2 (x : ℚ) : ℚ := (pyRound (x * 100) : ℚ) / 100

/-- Python's `int(t)` on a non-negative or negative number: truncation
toward zero. -/
def pyInt (t : ℚ) : ℤ :=
  if 0 ≤ t then Int.floor t else -Int.floor (-t)

/-- Function `calculate_sale_price` from `app.py`: guards on both quantity and
distance, then combines market price, volumetric premium, transport and
tax.  Returns (final_price, price_per_lt). -/
def calculate_sale_price (day : ℕ) (oil_type : Oil) (quantity_mt distance_km : ℚ) : ℚ × ℚ :=
  if quantity_mt ≤ 0 ∨ distance_km ≤ 0 then (0, 0)
  else
    let current_prices := (get_simulated_oil_prices day).1
    let density := OIL_DENSITIES oil_type
    let base_oil_price := current_prices oil_type * quantity_mt
    let quantity_litres := quantity_mt * 1000 / density
    let premium_cost := quantity_litres * 10
    let transport_cost := distance_km * TRANSPORT_COST_PER_KM
    let sub_total := base_oil_price + premium_cost + transport_cost
    let gst_amount := sub_total * IGST_RATE
    let total_price := sub_total + gst_amount
    let final_price : ℚ := (pyRound total_price : ℚ)
    let price_per_lt := if quantity_litres > 0 then pyRound2 (final_price / quantity_litres) else 0
    (final_price, price_per_lt)

/-- Function `calculate_sale_price` as redefined in the Sales Management page: the
guard checks only `quantity_mt <= 0`, not the distance. -/
def calculate_sale_price_sales (day : ℕ) (oil_type : Oil) (quantity_mt distance_km : ℚ) : ℚ × ℚ :=
  if quantity_mt ≤ 0 then (0, 0)
  else
    let current_prices := (get_simulated_oil_prices day).1
    let density := OIL_DENSITIES oil_type
    let base_oil_price := current_prices oil_type * quantity_mt
    let quantity_litres := quantity_mt * 1000 / density
    let premium_cost := quantity_litres * 10
    let transport_cost := distance_km * TRANSPORT_COST_PER_KM
    let sub_total := base_oil_price + premium_cost + transport_cost
    let gst_amount := sub_total * IGST_RATE
    let total_price := sub_total + gst_amount
    let final_price : ℚ := (pyRound total_price : ℚ)
    let price_per_lt := if quantity_litres > 0 then pyRound2 (final_price / quantity_litres) else 0
    (final_price, price_per_lt)

/-- One row of `inventory.csv`: columns OilType, InventoryType, QuantityMT.
`invType` is the literal CSV string, "Crude" or "Refined". -/
structure InvRow where
  oilType : String
  invType : String
  quantityMT : ℚ
deriving DecidableEq, Repr

/-- One row of `purchases.csv`. -/
structure Purchase where
  shipmentID : String
  oilType : String
  quantityMT : ℚ
  pricePerMT : ℚ
  totalCost : ℚ
  purchaseDate : String
  status : String
  supplier : String
deriving DecidableEq, Repr

/-- One row of `sales.csv`. -/
structure Sale where
  orderID : String
  vendorName : String
  destination : String
  distanceKM : ℚ
  oilType : String
  quantityMT : ℚ
  salePrice : ℚ
  orderDate : String
  status : String
deriving DecidableEq, Repr

/-- The three CSV tables the pages load, mutate and save. -/
structure State where
  purchases : List Purchase
  sales : List Sale
  inventory : List InvRow
deriving DecidableEq, Repr

/-- The quantity of the first inventory row matching (OilType, InventoryType),
mirroring `inventory[(inventory.OilType == oil) & (inventory.InventoryType == ty)].index[0]`
and the `.loc` reads on the filtered frames. -/
def lookupQty : List InvRow → String → String → Option ℚ
  | [], _, _ => none
  | r :: rs, oil, ty =>
    if r.oilType = oil ∧ r.invType = ty then some r.quantityMT else lookupQty rs oil ty

/-- Update the quantity of the first row matching (OilType, InventoryType);
when no row matches, the table is returned unchanged. -/
def modifyQty : List InvRow → String → String → (ℚ → ℚ) → List InvRow
  | [], _, _, _ => []
  | r :: rs, oil, ty, f =>
    if r.oilType = oil ∧ r.invType = ty then { r with quantityMT := f r.quantityMT } :: rs
    else r :: modifyQty rs oil ty f

/-- Overwrite the Status column of row `i`, as one changed row of a
`st.data_editor` save does. -/
def setStatusAt : List Purchase → ℕ → String → List Purchase
  | [], _, _ => []
  | p :: ps, 0, ns => { p with status := ns } :: ps
  | p :: ps, i + 1, ns => p :: setStatusAt ps i ns

/-- Overwrite the Status column of sales row `i`. -/
def setSaleStatusAt : List Sale → ℕ → String → List Sale
  | [], _, _ => []
  | p :: ps, 0, ns => { p with status := ns } :: ps
  | p :: ps, i + 1, ns => p :: setSaleStatusAt ps i ns

/-- Read row `i` of a table, as `edited_df.iterrows()` / `.at[index]` does. -/
def getRow? : List Purchase → ℕ → Option Purchase
  | [], _ => none
  | p :: _, 0 => some p
  | _ :: ps, i + 1 => getRow? ps i

/-- Shipment id `f"SHP-{int(time.time())}"`, with the clock reading `t` (in seconds,
possibly fractional) made an explicit argument. -/
def shipment_id (t : ℚ) : String := "SHP-" ++ toString (pyInt t)

/-- Order id `f"ORD-{int(time.time())}"` from the sales page. -/
def order_id (t : ℚ) : String := "ORD-" ++ toString (pyInt t)

/-- The `new_purchase_form` submit handler of the Purchase Management page:
validates supplier and quantity, then appends a new shipment row with
status "In Transit".  The inventory is untouched. -/
def logPurchase (s : State) (supplier : String) (oil : Oil)
    (quantity_mt price_per_mt : ℚ) (purchase_date : String) (t : ℚ) : State :=
  if supplier = "" ∨ quantity_mt ≤ 0 then s
  else
    { s with purchases := s.purchases ++
        [{ shipmentID := shipment_id t
           oilType := oilName oil
           quantityMT := quantity_mt
           pricePerMT := price_per_mt
           totalCost := quantity_mt * price_per_mt
           purchaseDate := purchase_date
           status := "In Transit"
           supplier := supplier }] }

/-- One changed row of the purchase `data_editor`: when the stored status
differs from the edited one, the handler credits the Crude pool by the
shipment quantity exactly when the new status is "Reached Factory" and the
stored one was not, skipping the credit silently when no (OilType, Crude)
inventory row exists, and then persists the edited status. -/
def updatePurchaseStatus (s : State) (i : ℕ) (new_status : String) : State :=
  match getRow? s.purchases i with
  | none => s
  | some row =>
    if row.status = new_status then s
    else
      let inv :=
        if new_status = "Reached Factory" ∧ row.status ≠ "Reached Factory" then
          modifyQty s.inventory row.oilType "Crude" (fun q => q + row.quantityMT)
        else s.inventory
      { s with purchases := setStatusAt s.purchases i new_status, inventory := inv }

/-- The `refining_form` submit handler of the Inventory and Refining page:
reads the available Crude quantity, rejects non-positive or excessive
amounts, and otherwise moves the amount from the Crude row to the Refined
row of the selected oil.  A missing row makes the Python handler raise
before saving, leaving the stored state unchanged. -/
def startRefining (s : State) (oil : Oil) (quantity_to_refine : ℚ) : State :=
  match lookupQty s.inventory (oilName oil) "Crude",
        lookupQty s.inventory (oilName oil) "Refined" with
  | some max_refine_qty, some _ =>
    if quantity_to_refine ≤ 0 then s
    else if quantity_to_refine > max_refine_qty then s
    else
      let inv1 := modifyQty s.inventory (oilName oil) "Crude" (fun q => q - quantity_to_refine)
      let inv2 := modifyQty inv1 (oilName oil) "Refined" (fun q => q + quantity_to_refine)
      { s with inventory := inv2 }
  | _, _ => s

/-- The `new_sale_form` submit handler of the Sales Management page:
validates the fields, reads the available Refined stock, and either books
the order as "Under Process" with no deduction (quantity above stock) or as
"Confirmed" deducting the quantity from the Refined row.  The quoted price
is fixed at booking from the page's own `calculate_sale_price`. -/
def bookOrder (s : State) (vendor_name destination : String) (distance_km : ℚ)
    (oil : Oil) (quantity_mt : ℚ) (order_date : String) (day : ℕ) (t : ℚ) : State :=
  if vendor_name = "" ∨ destination = "" ∨ quantity_mt ≤ 0 ∨ distance_km ≤ 0 then s
  else
    match lookupQty s.inventory (oilName oil) "Refined" with
    | none => s
    | some available_stock =>
      let final_price := (calculate_sale_price_sales day oil quantity_mt distance_km).1
      let status := if quantity_mt > available_stock then "Under Process" else "Confirmed"
      let inv :=
        if quantity_mt > available_stock then s.inventory
        else modifyQty s.inventory (oilName oil) "Refined" (fun q => q - quantity_mt)
      { s with
          inventory := inv
          sales := s.sales ++
            [{ orderID := order_id t
               vendorName := vendor_name
               destination := destination
               distanceKM := distance_km
               oilType := oilName oil
               quantityMT := quantity_mt
               salePrice := final_price
               orderDate := order_date
               status := status }] }

/-- One changed row of the sales `data_editor`: a plain status write. -/
def updateSaleStatus (s : State) (i : ℕ) (new_status : String) : State :=
  { s with sales := setSaleStatusAt s.sales i new_status }

/-- One user-visible mutating event of the app. -/
inductive Op : Type
  | logPurchase (supplier : String) (oil : Oil) (quantity_mt price_per_mt : ℚ)
      (purchase_date : String) (t : ℚ)
  | purchaseStatus (i : ℕ) (new_status : String)
  | refining (oil : Oil) (quantity_to_refine : ℚ)
  | bookOrder (vendor_name destination : String) (distance_km : ℚ) (oil : Oil)
      (quantity_mt : ℚ) (order_date : String) (day : ℕ) (t : ℚ)
  | saleStatus (i : ℕ) (new_status : String)

/-- The transition function of the whole app: dispatches one event to the
corresponding handler. -/
def step (s : State) : Op → State
  | .logPurchase sup oil q p date t => logPurchase s sup oil q p date t
  | .purchaseStatus i ns => updatePurchaseStatus s i ns
  | .refining oil q => startRefining s oil q
  | .bookOrder v dest dist oil q date day t => bookOrder s v dest dist oil q date day t
  | .saleStatus i ns => updateSaleStatus s i ns

/-- Run a sequence of events in order. -/
def runOps (s : State) (ops : List Op) : State := ops.foldl step s

/-- Every inventory quantity is non-negative. -/
def invNonneg (inv : List InvRow) : Prop := ∀ r ∈ inv, 0 ≤ r.quantityMT

/-- Every logged purchase quantity is non-negative. -/
def purchasesNonneg (ps : List Purchase) : Prop := ∀ p ∈ ps, 0 ≤ p.quantityMT

/-- The inductive invariant carried through `step`. -/
def Nonneg (s : State) : Prop := invNonneg s.inventory ∧ purchasesNonneg s.purchases

/-- A small concrete store used to instantiate the theorems. -/
def exState : State :=
  { purchases := [{ shipmentID := "SHP-1000", oilType := "Palm Oil", quantityMT := 5,
                    pricePerMT := 700, totalCost := 3500, purchaseDate := "2024-01-01",
                    status := "In Transit", supplier := "Acme" }]
    sales := []
    inventory := [{ oilType := "Palm Oil", invType := "Crude", quantityMT := 10 },
                  { oilType := "Palm Oil", invType := "Refined", quantityMT := 2 }] }

/-- The quote formula exactly as the specification words it: total is
round((price*q + ((q*1000)/density)*10 + d*12) * (1 + 0.05)) and the
per-volume price is round(total / volume, 2) for positive volume, else 0.
Stated for comparison against `calculate_sale_price`. -/
def quoteSpec (day : ℕ) (grade : Oil) (quantityMass distance : ℚ) : ℚ × ℚ :=
  let price := (get_simulated_oil_prices day).1 grade
  let volume := quantityMass * 1000 / OIL_DENSITIES grade
  let total : ℚ :=
    (pyRound ((price * quantityMass + volume * 10 + distance * 12) * (1 + 5/100)) : ℚ)
  let perVolume := if 0 < volume then pyRound2 (total / volume) else 0
  (total, perVolume)

/-- Given the stored status before a sequence of status writes, counts how
many of the writes cross into "Reached Factory" from a different status:
the number of times the arrival credit fires. -/
def entryCount : String → List String → ℕ
  | _, [] => 0
  | cur, ns :: rest =>
    (if ns ≠ cur ∧ ns = "Reached Factory" then 1 else 0) + entryCount ns rest

/-- A store whose inventory has no Crude row for Palm Oil. -/
def exStateNoCrude : State :=
  { purchases := [{ shipmentID := "SHP-1001", oilType := "Palm Oil", quantityMT := 5,
                    pricePerMT := 700, totalCost := 3500, purchaseDate := "2024-01-01",
                    status := "In Transit", supplier := "Acme" }]
    sales := []
    inventory := [{ oilType := "Palm Oil", invType := "Refined", quantityMT := 2 }] }

example : pyRound (1/2) = 0 := by norm_num [pyRound]
example : pyRound (3/2) = 2 := by norm_num [pyRound]
example : pyRound (7/5) = 1 := by norm_num [pyRound]
example : (calculate_sale_price 1 .crudeDegummed 1 1).1 = 95441 := by
  norm_num [calculate_sale_price, get_simulated_oil_prices, OIL_DENSITIES,
    TRANSPORT_COST_PER_KM, IGST_RATE, pyRound]
example : (calculate_sale_price 1 .crudeDegummed (1 + 1/1000000) 1).1 = 95441 := by
  norm_num [calculate_sale_price, get_simulated_oil_prices, OIL_DENSITIES,
    TRANSPORT_COST_PER_KM, IGST_RATE, pyRound]
example : (calculate_sale_price_sales 1 .crudeDegummed 1 0).1 ≠ 0 := by
  norm_num [calculate_sale_price_sales, get_simulated_oil_prices, OIL_DENSITIES,
    TRANSPORT_COST_PER_KM, IGST_RATE, pyRound]

theorem lookupQty_modifyQty_self (inv : List InvRow) (oil ty : String) (f : ℚ → ℚ) :
    lookupQty (modifyQty inv oil ty f) oil ty = Option.map f (lookupQty inv oil ty) := by
  induction inv with
  | nil => rfl
  | cons r rs ih =>
    by_cases h : r.oilType = oil ∧ r.invType = ty
    · simp [lookupQty, modifyQty, h]
    · simp [lookupQty, modifyQty, h, ih]

theorem lookupQty_modifyQty_ne (inv : List InvRow) (oil ty oil2 ty2 : String) (f : ℚ → ℚ)
    (h : ¬(oil2 = oil ∧ ty2 = ty)) :
    lookupQty (modifyQty inv oil2 ty2 f) oil ty = lookupQty inv oil ty := by
  have h' : ¬(oil = oil2 ∧ ty = ty2) := by
    rintro ⟨ha, hb⟩
    exact h ⟨ha.symm, hb.symm⟩
  induction inv with
  | nil => rfl
  | cons r rs ih =>
    by_cases h2 : r.oilType = oil2 ∧ r.invType = ty2
    · have h3 : ¬(r.oilType = oil ∧ r.invType = ty) := by
        rintro ⟨ha, hb⟩
        exact h ⟨h2.1 ▸ ha, h2.2 ▸ hb⟩
      simp [lookupQty, modifyQty, h2, h3, h, h']
    · by_cases h4 : r.oilType = oil ∧ r.invType = ty
      · simp [lookupQty, modifyQty, h2, h4, h, h']
      · simp [lookupQty, modifyQty, h2, h4, ih]

theorem modifyQty_of_lookupQty_none (inv : List InvRow) (oil ty : String) (f : ℚ → ℚ)
    (h : lookupQty inv oil ty = none) : modifyQty inv oil ty f = inv := by
  induction inv with
  | nil => rfl
  | cons r rs ih =>
    by_cases h2 : r.oilType = oil ∧ r.invType = ty
    · simp [lookupQty, h2] at h
    · simp only [lookupQty, if_neg h2] at h
      simp [modifyQty, h2, ih h]

theorem invNonneg_modifyQty_map (inv : List InvRow) (oil ty : String) (f : ℚ → ℚ)
    (hf : ∀ q, 0 ≤ q → 0 ≤ f q) (h : invNonneg inv) : invNonneg (modifyQty inv oil ty f) := by
  induction inv with
  | nil => exact h
  | cons r rs ih =>
    have hr : 0 ≤ r.quantityMT := h r (by simp)
    have hrs : invNonneg rs := fun q hq => h q (by simp [hq])
    by_cases h2 : r.oilType = oil ∧ r.invType = ty
    · intro q hq
      rw [modifyQty, if_pos h2] at hq
      rcases List.mem_cons.mp hq with h3 | h3
      · subst h3; exact hf _ hr
      · exact hrs _ h3
    · intro q hq
      rw [modifyQty, if_neg h2] at hq
      rcases List.mem_cons.mp hq with h3 | h3
      · subst h3; exact hr
      · exact ih hrs _ h3

theorem invNonneg_modifyQty_first (inv : List InvRow) (oil ty : String) (f : ℚ → ℚ) (c : ℚ)
    (h : invNonneg inv) (hl : lookupQty inv oil ty = some c) (hfc : 0 ≤ f c) :
    invNonneg (modifyQty inv oil ty f) := by
  induction inv with
  | nil => exact h
  | cons r rs ih =>
    have hr : 0 ≤ r.quantityMT := h r (by simp)
    have hrs : invNonneg rs := fun q hq => h q (by simp [hq])
    by_cases h2 : r.oilType = oil ∧ r.invType = ty
    · rw [lookupQty, if_pos h2, Option.some.injEq] at hl
      intro q hq
      rw [modifyQty, if_pos h2] at hq
      rcases List.mem_cons.mp hq with h3 | h3
      · subst h3; simpa [hl] using hfc
      · exact hrs _ h3
    · rw [lookupQty, if_neg h2] at hl
      intro q hq
      rw [modifyQty, if_neg h2] at hq
      rcases List.mem_cons.mp hq with h3 | h3
      · subst h3; exact hr
      · exact ih hrs hl _ h3

theorem purchasesNonneg_setStatusAt (ps : List Purchase) (i : ℕ) (ns : String)
    (h : purchasesNonneg ps) : purchasesNonneg (setStatusAt ps i ns) := by
  induction ps generalizing i with
  | nil => intro p hp; simp [setStatusAt] at hp
  | cons p ps ih =>
    have hp : 0 ≤ p.quantityMT := h p (by simp)
    have hps : purchasesNonneg ps := fun q hq => h q (by simp [hq])
    cases i with
    | zero =>
      intro q hq
      rcases List.mem_cons.mp hq with h3 | h3
      · subst h3; exact hp
      · exact hps _ h3
    | succ j =>
      intro q hq
      rcases List.mem_cons.mp hq with h3 | h3
      · subst h3; exact hp
      · exact ih j hps _ h3

/-- Claim C1: for 0 < x ≤ available Crude, the refining handler moves exactly
x from the Crude pool to the Refined pool of the grade, conserving the
Crude+Refined sum; for x above the available Crude it leaves the whole state
unchanged (all-or-nothing). -/
theorem refine_conserves_mass (s : State) (oil : Oil) (x c r : ℚ)
    (hc : lookupQty s.inventory (oilName oil) "Crude" = some c)
    (hr : lookupQty s.inventory (oilName oil) "Refined" = some r) :
    (0 < x → x ≤ c →
      lookupQty (startRefining s oil x).inventory (oilName oil) "Crude" = some (c - x) ∧
      lookupQty (startRefining s oil x).inventory (oilName oil) "Refined" = some (r + x) ∧
      (c - x) + (r + x) = c + r) ∧
    (c < x → startRefining s oil x = s) := by
  constructor
  · intro hx hxc
    unfold startRefining
    simp only [hc, hr]
    rw [if_neg (not_le.mpr hx), if_neg (not_lt.mpr hxc)]
    refine ⟨?_, ?_, by ring⟩
    · rw [lookupQty_modifyQty_ne _ _ _ _ _ _ (by simp), lookupQty_modifyQty_self, hc]
      rfl
    · rw [lookupQty_modifyQty_self, lookupQty_modifyQty_ne _ _ _ _ _ _ (by simp), hr]
      rfl
  · intro hcx
    unfold startRefining
    simp only [hc, hr]
    by_cases hx0 : x ≤ 0
    · rw [if_pos hx0]
    · rw [if_neg hx0, if_pos hcx]

theorem refine_conserves_mass_witness :
    lookupQty (startRefining exState .palm 4).inventory (oilName .palm) "Crude" = some (10 - 4) ∧
    lookupQty (startRefining exState .palm 4).inventory (oilName .palm) "Refined" = some (2 + 4) ∧
    ((10 : ℚ) - 4) + (2 + 4) = 10 + 2 :=
  (refine_conserves_mass exState .palm 4 10 2 (by decide) (by decide)).1
    (by norm_num) (by norm_num)

theorem mem_of_getRow? {ps : List Purchase} {i : ℕ} {p : Purchase}
    (h : getRow? ps i = some p) : p ∈ ps := by
  induction ps generalizing i with
  | nil => simp [getRow?] at h
  | cons q qs ih =>
    cases i with
    | zero =>
      simp only [getRow?, Option.some.injEq] at h
      exact h ▸ List.mem_cons_self q qs
    | succ j => exact List.mem_cons_of_mem _ (ih h)

theorem nonneg_logPurchase (s : State) (sup : String) (oil : Oil) (q p : ℚ)
    (date : String) (t : ℚ) (h : Nonneg s) : Nonneg (logPurchase s sup oil q p date t) := by
  unfold logPurchase
  split_ifs with hg
  · exact h
  · push_neg at hg
    refine ⟨h.1, ?_⟩
    intro pr hpr
    rcases List.mem_append.mp hpr with h3 | h3
    · exact h.2 _ h3
    · rw [List.mem_singleton.mp h3]
      exact le_of_lt hg.2

theorem nonneg_updatePurchaseStatus (s : State) (i : ℕ) (ns : String)
    (h : Nonneg s) : Nonneg (updatePurchaseStatus s i ns) := by
  unfold updatePurchaseStatus
  cases hrow : getRow? s.purchases i with
  | none => exact h
  | some row =>
    have hq : 0 ≤ row.quantityMT := h.2 _ (mem_of_getRow? hrow)
    dsimp only
    split_ifs with heq harr
    · exact h
    · exact ⟨invNonneg_modifyQty_map _ _ _ _ (fun q hq0 => by linarith) h.1,
        purchasesNonneg_setStatusAt _ _ _ h.2⟩
    · exact ⟨h.1, purchasesNonneg_setStatusAt _ _ _ h.2⟩

theorem nonneg_startRefining (s : State) (oil : Oil) (x : ℚ)
    (h : Nonneg s) : Nonneg (startRefining s oil x) := by
  unfold startRefining
  cases hc : lookupQty s.inventory (oilName oil) "Crude" with
  | none => exact h
  | some c =>
    cases hr0 : lookupQty s.inventory (oilName oil) "Refined" with
    | none => exact h
    | some r =>
      dsimp only
      split_ifs with h1 h2
      · exact h
      · exact h
      · push_neg at h1 h2
        refine ⟨?_, h.2⟩
        apply invNonneg_modifyQty_map _ _ _ _ (fun q hq0 => by linarith)
        exact invNonneg_modifyQty_first _ _ _ _ c h.1 hc (by linarith)

theorem nonneg_bookOrder (s : State) (v dest : String) (dist : ℚ) (oil : Oil)
    (q : ℚ) (date : String) (day : ℕ) (t : ℚ) (h : Nonneg s) :
    Nonneg (bookOrder s v dest dist oil q date day t) := by
  unfold bookOrder
  split_ifs with hg
  · exact h
  · cases ha : lookupQty s.inventory (oilName oil) "Refined" with
    | none => exact h
    | some available =>
      push_neg at hg
      dsimp only
      split_ifs with h2
      · exact ⟨h.1, h.2⟩
      · push_neg at h2
        refine ⟨?_, h.2⟩
        exact invNonneg_modifyQty_first _ _ _ _ available h.1 ha (by linarith)

theorem step_preserves_nonneg (s : State) (op : Op) (h : Nonneg s) : Nonneg (step s op) := by
  cases op with
  | logPurchase sup oil q p date t => exact nonneg_logPurchase s sup oil q p date t h
  | purchaseStatus i ns => exact nonneg_updatePurchaseStatus s i ns h
  | refining oil x => exact nonneg_startRefining s oil x h
  | bookOrder v dest dist oil q date day t => exact nonneg_bookOrder s v dest dist oil q date day t h
  | saleStatus i ns => exact ⟨h.1, h.2⟩

theorem runOps_preserves_nonneg (s : State) (ops : List Op) (h : Nonneg s) :
    Nonneg (runOps s ops) := by
  induction ops generalizing s with
  | nil => exact h
  | cons op rest ih => exact ih (step s op) (step_preserves_nonneg s op h)

/-- Claim C2: starting from a fresh store whose inventory quantities are all
non-negative, every sequence of app events (logging purchases, status
transitions with their arrival credit, refining, booking sales) keeps every
(grade, pool) inventory quantity non-negative. -/
theorem ops_preserve_inventory_nonneg (inv : List InvRow) (h : invNonneg inv) (ops : List Op) :
    invNonneg (runOps { purchases := [], sales := [], inventory := inv } ops).inventory :=
  (runOps_preserves_nonneg _ ops ⟨h, fun p hp => absurd hp (List.not_mem_nil p)⟩).1

theorem ops_preserve_inventory_nonneg_witness :
    invNonneg (runOps ⟨[], [], [⟨"Palm Oil", "Crude", 0⟩]⟩
      ([Op.logPurchase "Acme" .palm 5 700 "2024-01-01" 1000,
        Op.purchaseStatus 0 "Reached Factory",
        Op.refining .palm 2])).inventory :=
  ops_preserve_inventory_nonneg _ (by simp [invNonneg]) _

theorem setStatusAt_getRow_self (ps : List Purchase) (i : ℕ) (ns : String) :
    getRow? (setStatusAt ps i ns) i = (getRow? ps i).map (fun p => { p with status := ns }) := by
  induction ps generalizing i with
  | nil => simp [setStatusAt, getRow?]
  | cons p ps ih =>
    cases i with
    | zero => simp [setStatusAt, getRow?]
    | succ j => simpa [setStatusAt, getRow?] using ih j

theorem updatePurchaseStatus_noop (s : State) (i : ℕ) (row : Purchase) (ns : String)
    (hrow : getRow? s.purchases i = some row) (h : row.status = ns) :
    updatePurchaseStatus s i ns = s := by
  unfold updatePurchaseStatus
  simp only [hrow]
  rw [if_pos h]

theorem updatePurchaseStatus_arrival (s : State) (i : ℕ) (row : Purchase)
    (hrow : getRow? s.purchases i = some row) (hst : row.status ≠ "Reached Factory") :
    updatePurchaseStatus s i "Reached Factory" =
      { s with purchases := setStatusAt s.purchases i "Reached Factory",
               inventory := modifyQty s.inventory row.oilType "Crude"
                 (fun q => q + row.quantityMT) } := by
  unfold updatePurchaseStatus
  simp only [hrow]
  rw [if_neg hst]
  rw [if_pos (by refine ⟨?_, hst⟩; trivial)]

/-- Claim C4: with valid inputs, booking a quantity above the available
Refined stock appends an "Under Process" order and leaves the inventory
unchanged; booking a quantity at most the stock appends a "Confirmed" order
and reduces the Refined quantity by exactly the booked amount. -/
theorem bookOrder_stock_check (s : State) (v dest : String) (dist : ℚ) (oil : Oil)
    (q : ℚ) (date : String) (day : ℕ) (t : ℚ) (r : ℚ)
    (hv : v ≠ "") (hd : dest ≠ "") (hq : 0 < q) (hdist : 0 < dist)
    (hr : lookupQty s.inventory (oilName oil) "Refined" = some r) :
    (r < q →
      ((bookOrder s v dest dist oil q date day t).sales.getLast?).map Sale.status =
        some "Under Process" ∧
      (bookOrder s v dest dist oil q date day t).inventory = s.inventory) ∧
    (q ≤ r →
      ((bookOrder s v dest dist oil q date day t).sales.getLast?).map Sale.status =
        some "Confirmed" ∧
      lookupQty (bookOrder s v dest dist oil q date day t).inventory (oilName oil) "Refined" =
        some (r - q)) := by
  have hguard : ¬(v = "" ∨ dest = "" ∨ q ≤ 0 ∨ dist ≤ 0) := by
    push_neg
    exact ⟨hv, hd, hq, hdist⟩
  constructor
  · intro hlt
    unfold bookOrder
    rw [if_neg hguard]
    simp only [hr]
    rw [if_pos hlt, if_pos hlt]
    exact ⟨by rw [List.getLast?_concat]; rfl, rfl⟩
  · intro hle
    unfold bookOrder
    rw [if_neg hguard]
    simp only [hr]
    rw [if_neg (not_lt.mpr hle), if_neg (not_lt.mpr hle)]
    refine ⟨by rw [List.getLast?_concat]; rfl, ?_⟩
    rw [lookupQty_modifyQty_self, hr]
    rfl

theorem bookOrder_stock_check_witness :
    ((bookOrder exState "V" "D" 10 .palm 1 "2024-01-02" 1 2000).sales.getLast?).map Sale.status =
      some "Confirmed" ∧
    lookupQty (bookOrder exState "V" "D" 10 .palm 1 "2024-01-02" 1 2000).inventory
      (oilName .palm) "Refined" = some (2 - 1) :=
  (bookOrder_stock_check exState "V" "D" 10 .palm 1 "2024-01-02" 1 2000 2
      (by decide) (by decide) (by norm_num) (by norm_num) (by decide)).2 (by norm_num)

/-- Claim C8: re-setting "Reached Factory" when the stored status is already
"Reached Factory" is a complete no-op, so no second credit occurs — in
particular, from a not-yet-arrived order two consecutive arrival calls
credit the Crude pool exactly once; and every transition to a status other
than "Reached Factory", from any stored status (an arrived one included),
writes the status while leaving all inventory quantities unchanged. -/
theorem arrival_idempotent (s : State) (i : ℕ) (row : Purchase)
    (hrow : getRow? s.purchases i = some row) :
    (row.status = "Reached Factory" → updatePurchaseStatus s i "Reached Factory" = s) ∧
    (∀ c, lookupQty s.inventory row.oilType "Crude" = some c →
      row.status ≠ "Reached Factory" →
      lookupQty (updatePurchaseStatus (updatePurchaseStatus s i "Reached Factory") i
        "Reached Factory").inventory row.oilType "Crude" = some (c + row.quantityMT)) ∧
    (∀ ns, ns ≠ "Reached Factory" →
      (updatePurchaseStatus s i ns).inventory = s.inventory ∧
      (getRow? (updatePurchaseStatus s i ns).purchases i).map Purchase.status = some ns) := by
  refine ⟨fun hsame => updatePurchaseStatus_noop s i row _ hrow hsame, ?_, ?_⟩
  · intro c hc hst
    have h1 := updatePurchaseStatus_arrival s i row hrow hst
    have h2 : getRow? (updatePurchaseStatus s i "Reached Factory").purchases i =
        some { row with status := "Reached Factory" } := by
      rw [h1]
      dsimp only
      rw [setStatusAt_getRow_self, hrow]
      rfl
    rw [updatePurchaseStatus_noop _ i _ _ h2 rfl, h1]
    dsimp only
    rw [lookupQty_modifyQty_self, hc]
    rfl
  · intro ns hns
    by_cases hsame : row.status = ns
    · rw [updatePurchaseStatus_noop s i row ns hrow hsame]
      refine ⟨rfl, ?_⟩
      rw [hrow]
      simp [hsame]
    · unfold updatePurchaseStatus
      simp only [hrow]
      rw [if_neg hsame]
      dsimp only
      rw [if_neg (fun hand => hns hand.1)]
      exact ⟨rfl, by rw [setStatusAt_getRow_self, hrow]; rfl⟩

theorem arrival_idempotent_witness :
    lookupQty (updatePurchaseStatus (updatePurchaseStatus exState 0 "Reached Factory") 0
        "Reached Factory").inventory "Palm Oil" "Crude" = some (10 + 5) :=
  (arrival_idempotent exState 0
      { shipmentID := "SHP-1000", oilType := "Palm Oil", quantityMT := 5, pricePerMT := 700,
        totalCost := 3500, purchaseDate := "2024-01-01", status := "In Transit",
        supplier := "Acme" }
      (by decide)).2.1 10 (by decide) (by decide)

/-- Claim C10: transitioning a purchase to "Reached Factory" when the
inventory has no (grade, Crude) row persists the new status, performs no
inventory credit, and raises no error: the credit is silently skipped. -/
theorem arrival_missing_crude_row (s : State) (i : ℕ) (row : Purchase)
    (hrow : getRow? s.purchases i = some row)
    (hnone : lookupQty s.inventory row.oilType "Crude" = none) :
    (updatePurchaseStatus s i "Reached Factory").inventory = s.inventory ∧
    (getRow? (updatePurchaseStatus s i "Reached Factory").purchases i).map Purchase.status =
      some "Reached Factory" := by
  by_cases hsame : row.status = "Reached Factory"
  · rw [updatePurchaseStatus_noop s i row _ hrow hsame]
    refine ⟨rfl, ?_⟩
    rw [hrow]
    simp [hsame]
  · rw [updatePurchaseStatus_arrival s i row hrow hsame,
      modifyQty_of_lookupQty_none _ _ _ _ hnone]
    exact ⟨rfl, by rw [setStatusAt_getRow_self, hrow]; rfl⟩

theorem arrival_missing_crude_row_witness :
    (updatePurchaseStatus exStateNoCrude 0 "Reached Factory").inventory =
      exStateNoCrude.inventory ∧
    (getRow? (updatePurchaseStatus exStateNoCrude 0 "Reached Factory").purchases 0).map
      Purchase.status = some "Reached Factory" :=
  arrival_missing_crude_row exStateNoCrude 0
    { shipmentID := "SHP-1001", oilType := "Palm Oil", quantityMT := 5, pricePerMT := 700,
      totalCost := 3500, purchaseDate := "2024-01-01", status := "In Transit",
      supplier := "Acme" }
    (by decide) (by decide)

theorem runOps_cons (s : State) (op : Op) (ops : List Op) :
    runOps s (op :: ops) = runOps (step s op) ops := rfl

theorem updatePurchaseStatus_plain (s : State) (i : ℕ) (row : Purchase) (ns : String)
    (hrow : getRow? s.purchases i = some row) (hne : ¬row.status = ns)
    (hns : ns ≠ "Reached Factory") :
    updatePurchaseStatus s i ns = { s with purchases := setStatusAt s.purchases i ns } := by
  unfold updatePurchaseStatus
  simp only [hrow]
  rw [if_neg hne]
  rw [if_neg (fun hand => hns hand.1)]

/-- Claim C3 fails on the code: arriving, moving backward to "At Port" and
arriving again credits the same order's quantity (5) twice — the Crude pool
ends at 10 + 5 + 5 = 20, not at the exactly-once value 15. -/
theorem arrival_credit_fires_twice_on_oscillation :
    lookupQty (runOps exState
      ([Op.purchaseStatus 0 "Reached Factory", Op.purchaseStatus 0 "At Port",
        Op.purchaseStatus 0 "Reached Factory"])).inventory "Palm Oil" "Crude" = some 20 ∧
    ¬lookupQty (runOps exState
      ([Op.purchaseStatus 0 "Reached Factory", Op.purchaseStatus 0 "At Port",
        Op.purchaseStatus 0 "Reached Factory"])).inventory "Palm Oil" "Crude" = some (10 + 5) := by
  refine ⟨?_, ?_⟩ <;>
    norm_num [runOps, step, updatePurchaseStatus, getRow?, setStatusAt, modifyQty, lookupQty,
      exState]

/-- Claim C3 amended: over any sequence of status writes to a single order,
the Crude credit fires once per transition into "Reached Factory" from a
different stored status — consecutive repeats do not re-credit, but leaving
and re-entering the status credits again, so the total credit is the order
quantity times the number of such entries. -/
theorem arrival_credit_counts_entries (row : Purchase) (sales : List Sale)
    (inv : List InvRow) (c : ℚ) (ss : List String) (oilKey : String)
    (hkey : row.oilType = oilKey)
    (hc : lookupQty inv oilKey "Crude" = some c) :
    lookupQty (runOps ⟨[row], sales, inv⟩ (ss.map (Op.purchaseStatus 0))).inventory
      oilKey "Crude" = some (c + row.quantityMT * entryCount row.status ss) := by
  induction ss generalizing row inv c with
  | nil => simpa [runOps, entryCount] using hc
  | cons ns rest ih =>
    rw [List.map_cons, runOps_cons]
    by_cases hsame : row.status = ns
    · have hstep : step ⟨[row], sales, inv⟩ (Op.purchaseStatus 0 ns) = ⟨[row], sales, inv⟩ :=
        updatePurchaseStatus_noop ⟨[row], sales, inv⟩ 0 row ns rfl hsame
      rw [hstep, ih row inv c hkey hc]
      have he : entryCount row.status (ns :: rest) = entryCount row.status rest := by
        rw [entryCount, if_neg (fun hand => hand.1 hsame.symm), zero_add, hsame]
      rw [he]
    · by_cases hrf : ns = "Reached Factory"
      · subst hrf
        have hstep := updatePurchaseStatus_arrival ⟨[row], sales, inv⟩ 0 row rfl hsame
        rw [show step ⟨[row], sales, inv⟩ (Op.purchaseStatus 0 "Reached Factory") =
            updatePurchaseStatus ⟨[row], sales, inv⟩ 0 "Reached Factory" from rfl, hstep]
        dsimp only
        have hc2 : lookupQty (modifyQty inv row.oilType "Crude" (fun q => q + row.quantityMT))
            oilKey "Crude" = some (c + row.quantityMT) := by
          rw [hkey, lookupQty_modifyQty_self, hc]
          rfl
        have hsets : setStatusAt [row] 0 "Reached Factory" =
            [{ row with status := "Reached Factory" }] := rfl
        rw [hsets, ih { row with status := "Reached Factory" } _ (c + row.quantityMT) hkey hc2]
        have he : entryCount row.status ("Reached Factory" :: rest) =
            1 + entryCount "Reached Factory" rest := by
          rw [entryCount, if_pos ⟨fun h => hsame h.symm, rfl⟩]
        rw [he]
        congr 1
        push_cast
        ring
      · have hstep := updatePurchaseStatus_plain ⟨[row], sales, inv⟩ 0 row ns rfl hsame hrf
        rw [show step ⟨[row], sales, inv⟩ (Op.purchaseStatus 0 ns) =
            updatePurchaseStatus ⟨[row], sales, inv⟩ 0 ns from rfl, hstep]
        dsimp only
        have hsets : setStatusAt [row] 0 ns = [{ row with status := ns }] := rfl
        rw [hsets, ih { row with status := ns } inv c hkey hc]
        have he : entryCount row.status (ns :: rest) = entryCount ns rest := by
          rw [entryCount, if_neg (fun hand => hrf hand.2), zero_add]
        rw [he]

theorem arrival_credit_counts_entries_witness :
    lookupQty (runOps ⟨[⟨"SHP-1000", "Palm Oil", 5, 700, 3500, "2024-01-01", "In Transit",
        "Acme"⟩], [], [⟨"Palm Oil", "Crude", 0⟩]⟩
      ((["Reached Factory", "At Port", "Reached Factory"]).map (Op.purchaseStatus 0))).inventory
      "Palm Oil" "Crude" =
      some ((0 : ℚ) + 5 * (entryCount "In Transit"
        ["Reached Factory", "At Port", "Reached Factory"] : ℚ)) :=
  arrival_credit_counts_entries _ [] _ 0 _ "Palm Oil" (by decide) (by decide)

/-- Claim C5 fails for the Sales Management implementation: at quantity 1
(positive) and distance 0 (not positive) it computes a full quote, 95429,
instead of the degenerate (0, 0): its guard never tests the distance. -/
theorem sales_quote_ignores_distance_guard :
    (calculate_sale_price_sales 1 .crudeDegummed 1 0).1 = 95429 ∧
    calculate_sale_price_sales 1 .crudeDegummed 1 0 ≠ (0, 0) := by
  have h1 : (calculate_sale_price_sales 1 .crudeDegummed 1 0).1 = 95429 := by
    norm_num [calculate_sale_price_sales, get_simulated_oil_prices, OIL_DENSITIES,
      TRANSPORT_COST_PER_KM, IGST_RATE, pyRound]
  refine ⟨h1, fun heq => ?_⟩
  rw [heq] at h1
  norm_num at h1

/-- Claim C5 amended: the dashboard implementation returns (0, 0) whenever
quantityMass ≤ 0 or distance ≤ 0; the sales-page implementation returns
(0, 0) whenever quantityMass ≤ 0 (its guard does not test the distance, so
for positive quantity and non-positive distance it computes a full quote). -/
theorem degenerate_quote_guards (day : ℕ) (oil : Oil) (q d : ℚ) :
    (q ≤ 0 ∨ d ≤ 0 → calculate_sale_price day oil q d = (0, 0)) ∧
    (q ≤ 0 → calculate_sale_price_sales day oil q d = (0, 0)) := by
  constructor
  · intro h
    unfold calculate_sale_price
    rw [if_pos h]
  · intro h
    unfold calculate_sale_price_sales
    rw [if_pos h]

theorem degenerate_quote_guards_witness :
    calculate_sale_price 1 .palm 0 5 = (0, 0) ∧
    calculate_sale_price_sales 1 .palm 0 5 = (0, 0) :=
  ⟨(degenerate_quote_guards 1 .palm 0 5).1 (Or.inl le_rfl),
   (degenerate_quote_guards 1 .palm 0 5).2 le_rfl⟩

/-- Claim C6: for positive quantity and distance the dashboard quote equals
the specification formula: total = round((price*q + ((q*1000)/density)*10 +
d*12) * (1 + 0.05)), and the per-volume price is round(total/volume, 2) for
positive volume, else 0. -/
theorem quote_matches_spec (day : ℕ) (oil : Oil) (q d : ℚ) (hq : 0 < q) (hd : 0 < d) :
    calculate_sale_price day oil q d = quoteSpec day oil q d := by
  have hguard : ¬(q ≤ 0 ∨ d ≤ 0) := by
    push_neg
    exact ⟨hq, hd⟩
  unfold calculate_sale_price quoteSpec
  rw [if_neg hguard]
  dsimp only
  have harg : (get_simulated_oil_prices day).1 oil * q + q * 1000 / OIL_DENSITIES oil * 10 +
      d * TRANSPORT_COST_PER_KM +
      ((get_simulated_oil_prices day).1 oil * q + q * 1000 / OIL_DENSITIES oil * 10 +
        d * TRANSPORT_COST_PER_KM) * IGST_RATE =
      ((get_simulated_oil_prices day).1 oil * q + q * 1000 / OIL_DENSITIES oil * 10 + d * 12) *
        (1 + 5 / 100) := by
    simp only [TRANSPORT_COST_PER_KM, IGST_RATE]
    ring
  rw [harg]

theorem quote_matches_spec_witness :
    calculate_sale_price 2 .palm 3 7 = quoteSpec 2 .palm 3 7 :=
  quote_matches_spec 2 .palm 3 7 (by norm_num) (by norm_num)

/-- Claim C9 states the collision-freedom the spec demands, but the code
derives ids from `int(time.time())`: two calls within the same clock second
(at t = 1000 s and t = 1000.5 s) receive the identical ids "SHP-1000" and
"ORD-1000", so ids are not unique under rapid successive calls. -/
theorem timestamp_ids_collide :
    (1000 : ℚ) ≠ 1000 + 1/2 ∧
    shipment_id 1000 = shipment_id (1000 + 1/2) ∧
    order_id 1000 = order_id (1000 + 1/2) := by
  have hfloor : pyInt (1000 + 1/2 : ℚ) = pyInt (1000 : ℚ) := by
    norm_num [pyInt]
  exact ⟨by norm_num, by rw [shipment_id, shipment_id, hfloor], by rw [order_id, order_id, hfloor]⟩

theorem floor_le_pyRound (x : ℚ) : ⌊x⌋ ≤ pyRound x := by
  unfold pyRound
  split_ifs <;> omega

theorem pyRound_le_floor_add_one (x : ℚ) : pyRound x ≤ ⌊x⌋ + 1 := by
  unfold pyRound
  split_ifs <;> omega

theorem pyRound_mono {x y : ℚ} (h : x ≤ y) : pyRound x ≤ pyRound y := by
  rcases lt_or_le ⌊x⌋ ⌊y⌋ with hf | hf
  · calc pyRound x ≤ ⌊x⌋ + 1 := pyRound_le_floor_add_one x
      _ ≤ ⌊y⌋ := by omega
      _ ≤ pyRound y := floor_le_pyRound y
  · have hf2 : ⌊x⌋ = ⌊y⌋ := le_antisymm (Int.floor_le_floor h) hf
    unfold pyRound
    rw [hf2]
    split_ifs <;> first | omega | (exfalso; linarith)

theorem price_pos (day : ℕ) (oil : Oil) : 0 < (get_simulated_oil_prices day).1 oil := by
  have hd : (0 : ℚ) ≤ (day : ℚ) * 15 := by positivity
  cases oil <;> simp only [get_simulated_oil_prices] <;> linarith

theorem density_pos (oil : Oil) : 0 < OIL_DENSITIES oil := by
  cases oil <;> norm_num [OIL_DENSITIES]

/-- Claim C7 amended: for a fixed grade, day and positive distance, the
total quote is non-decreasing in the quantity, and for fixed positive
quantity it is non-decreasing in the distance — strict growth is lost only
at the final rounding to a whole currency unit. -/
theorem quote_total_monotone (day : ℕ) (oil : Oil) :
    (∀ q1 q2 d : ℚ, 0 < q1 → q1 ≤ q2 → 0 < d →
      (calculate_sale_price day oil q1 d).1 ≤ (calculate_sale_price day oil q2 d).1) ∧
    (∀ q d1 d2 : ℚ, 0 < q → 0 < d1 → d1 ≤ d2 →
      (calculate_sale_price day oil q d1).1 ≤ (calculate_sale_price day oil q d2).1) := by
  have hP := price_pos day oil
  have hρ := density_pos oil
  constructor
  · intro q1 q2 d hq1 h12 hd
    have hg1 : ¬(q1 ≤ 0 ∨ d ≤ 0) := by push_neg; exact ⟨hq1, hd⟩
    have hg2 : ¬(q2 ≤ 0 ∨ d ≤ 0) := by push_neg; exact ⟨lt_of_lt_of_le hq1 h12, hd⟩
    unfold calculate_sale_price
    rw [if_neg hg1, if_neg hg2]
    dsimp only
    have hlit : q1 * 1000 / OIL_DENSITIES oil ≤ q2 * 1000 / OIL_DENSITIES oil :=
      (div_le_div_iff_of_pos_right hρ).mpr (by linarith)
    have hbase : (get_simulated_oil_prices day).1 oil * q1 ≤
        (get_simulated_oil_prices day).1 oil * q2 :=
      mul_le_mul_of_nonneg_left h12 hP.le
    have harg : (get_simulated_oil_prices day).1 oil * q1 + q1 * 1000 / OIL_DENSITIES oil * 10 +
        d * TRANSPORT_COST_PER_KM +
        ((get_simulated_oil_prices day).1 oil * q1 + q1 * 1000 / OIL_DENSITIES oil * 10 +
          d * TRANSPORT_COST_PER_KM) * IGST_RATE ≤
        (get_simulated_oil_prices day).1 oil * q2 + q2 * 1000 / OIL_DENSITIES oil * 10 +
        d * TRANSPORT_COST_PER_KM +
        ((get_simulated_oil_prices day).1 oil * q2 + q2 * 1000 / OIL_DENSITIES oil * 10 +
          d * TRANSPORT_COST_PER_KM) * IGST_RATE := by
      simp only [IGST_RATE]
      linarith
    exact_mod_cast pyRound_mono harg
  · intro q d1 d2 hq hd1 h12
    have hg1 : ¬(q ≤ 0 ∨ d1 ≤ 0) := by push_neg; exact ⟨hq, hd1⟩
    have hg2 : ¬(q ≤ 0 ∨ d2 ≤ 0) := by push_neg; exact ⟨hq, lt_of_lt_of_le hd1 h12⟩
    unfold calculate_sale_price
    rw [if_neg hg1, if_neg hg2]
    dsimp only
    have harg : (get_simulated_oil_prices day).1 oil * q + q * 1000 / OIL_DENSITIES oil * 10 +
        d1 * TRANSPORT_COST_PER_KM +
        ((get_simulated_oil_prices day).1 oil * q + q * 1000 / OIL_DENSITIES oil * 10 +
          d1 * TRANSPORT_COST_PER_KM) * IGST_RATE ≤
        (get_simulated_oil_prices day).1 oil * q + q * 1000 / OIL_DENSITIES oil * 10 +
        d2 * TRANSPORT_COST_PER_KM +
        ((get_simulated_oil_prices day).1 oil * q + q * 1000 / OIL_DENSITIES oil * 10 +
          d2 * TRANSPORT_COST_PER_KM) * IGST_RATE := by
      simp only [IGST_RATE, TRANSPORT_COST_PER_KM]
      linarith
    exact_mod_cast pyRound_mono harg

theorem quote_total_monotone_witness :
    (calculate_sale_price 1 .palm 2 5).1 ≤ (calculate_sale_price 1 .palm 3 5).1 :=
  (quote_total_monotone 1 .palm).1 2 3 5 (by norm_num) (by norm_num) (by norm_num)

/-- Claim C7 fails as literally stated (strict monotonicity): at day 1,
grade "Crude Degummed Oil", distance 1, the quantities 1 and 1 + 1/1000000
both produce the rounded total 95441, so a strictly larger quantity does not
give a strictly larger total. -/
theorem quote_total_not_strictly_monotone :
    (1 : ℚ) < 1 + 1/1000000 ∧
    (calculate_sale_price 1 .crudeDegummed 1 1).1 =
      (calculate_sale_price 1 .crudeDegummed (1 + 1/1000000) 1).1 := by
  have h1 : (calculate_sale_price 1 .crudeDegummed 1 1).1 = 95441 := by
    norm_num [calculate_sale_price, get_simulated_oil_prices, OIL_DENSITIES,
      TRANSPORT_COST_PER_KM, IGST_RATE, pyRound]
  have h2 : (calculate_sale_price 1 .crudeDegummed (1 + 1/1000000) 1).1 = 95441 := by
    norm_num [calculate_sale_price, get_simulated_oil_prices, OIL_DENSITIES,
      TRANSPORT_COST_PER_KM, IGST_RATE, pyRound]
  exact ⟨by norm_num, by rw [h1, h2]⟩

end OilLogistics
